import Mathlib

/-!
Verification of the SHOCK notebook manager
(`IPython/frontend/html/notebook/shocknbmanager.py`).

The development is a shallow embedding of `ShockNotebookManager`:

* a store node (one object of a SHOCK listing) is a `Node`;
* the two in-memory dictionaries `self.mapping` (uuid → name) and
  `self.shock_map` (uuid → node) form the state `NBState`; Python dicts are
  embedded as insertion-ordered association lists with unique keys, with
  `pySet`/`pyGet`/`pyDelete` mirroring `d[k] = v`, `d[k]` and `del d[k]`;
* the network is passed in explicitly: a `Response` (for `requests.get`)
  and a `PostResponse` (for `requests.post`) carry exactly the observable
  fields the Python code inspects, and `getShock`/`postShock` are the
  client functions of the source evaluated on them;
* a raised Python exception is a `PyExc` value: `web.HTTPError(status, msg)`
  becomes `.httpError status msg` (the `%`-interpolated parts of the
  messages are dropped, the constant prefix is kept), the
  `requests` exception raised by `raise_for_status()` becomes
  `.requestsError status`, and a `KeyError` / unbound-local `NameError`
  are `.keyError` / `.nameError`.
-/

deriving instance DecidableEq for Except

namespace Shock

/-! ## Data model -/

/-- The attribute block of a store node (`node['attributes']`).  The store
contract requires the keys `uuid` and `name`, so they are plain fields;
`created` is kept optional because the code's behaviour depends on the key
being absent (`none`) versus present but empty (`some ""`); `deleted`
records whether the key `'deleted'` is present at all (its value is never
read: the source only tests `'deleted' in node['attributes']`). -/
structure Attrs where
  uuid : String
  name : String
  created : Option String
  deleted : Bool
  deriving Repr, DecidableEq

/-- One object of a SHOCK listing: `node['id']`, `node['file']['size']` and
`node['attributes']`. -/
structure Node where
  id : String
  size : Nat
  attributes : Attrs
  deriving Repr, DecidableEq

/-- A raised Python exception, as far as the manager's code distinguishes
them. -/
inductive PyExc where
  | httpError (status : Int) (msg : String)
  | requestsError (status : Int)
  | nameError (v : String)
  | keyError (k : String)
  | indexError
  deriving Repr, DecidableEq

/-- The three SHOCK envelope fields of a parsed JSON response body, keyed
`'S'`, `'D'` and `'E'` in the source; a `none` field marks a key missing
from the dict.  The payload type `α` depends on the operation (a node list
for a query, a single node for a create). -/
structure ShockJson (α : Type) where
  s : Option Int
  d : Option α
  e : Option String
  deriving Repr, DecidableEq

/-- What the code observes of a `requests.get` response: whether the call
itself raised (`connects = false`), `rget.ok`, the HTTP status (consulted
by `raise_for_status()`), `rget.text`, and `rget.json` (`none` when the
body is not a JSON object). -/
structure Response where
  connects : Bool
  ok : Bool
  status : Int
  text : String
  json : Option (ShockJson (Option (List Node)))
  deriving Repr, DecidableEq

/-- What the code observes of a `requests.post` response. -/
structure PostResponse where
  connects : Bool
  ok : Bool
  status : Int
  json : Option (ShockJson Node)
  deriving Repr, DecidableEq

/-! ## ObjectStoreClient: `getShock` / `postShock`

`getShock(url, 'json')`, lines 145-159 of the source.  Two slips of the
source are embedded faithfully rather than repaired:

* on `format == 'json'`, when the envelope check
  `rj and isinstance(rj, dict) and all([key in rj for key in ['S','D','E']])`
  fails, the code builds the 415 message with `u'... %s' % e` — but `e` is
  only assigned inside the earlier `except` clause, which did not run on
  this path, so the interpolation raises an unbound-local `NameError`
  instead of the intended `web.HTTPError(415, ...)`;
* when `rget.ok` is false, the 400 message calls `rget.raise_for_status()`,
  which itself raises the `requests` error for the status, pre-empting the
  `web.HTTPError`.  (When `rget.ok` holds but `rget.text` is empty,
  `raise_for_status()` returns `None` and the 400 is raised.) -/
def getShock (r : Response) : Except PyExc (Option (List Node)) :=
  if ¬ r.connects then
    .error (.httpError 400 "Unable to connect to SHOCK server")
  else if ¬ (r.ok ∧ r.text ≠ "") then
    (if r.ok then .error (.httpError 400 "Unable to connect to SHOCK server")
     else .error (.requestsError r.status))
  else
    match r.json with
    | some rj =>
      match rj.s, rj.d, rj.e with
      | some s, some d, some e =>
        if e ≠ "" then .error (.httpError s ("SHOCK error: " ++ e))
        else .ok d
      | _, _, _ => .error (.nameError "e")
    | none => .error (.nameError "e")

/-- `getShock(url, 'data')`: the `format != 'json'` branch returns
`rget.text` after the same connection checks, skipping envelope
validation. -/
def getShockData (r : Response) : Except PyExc String :=
  if ¬ r.connects then
    .error (.httpError 400 "Unable to connect to SHOCK server")
  else if ¬ (r.ok ∧ r.text ≠ "") then
    (if r.ok then .error (.httpError 400 "Unable to connect to SHOCK server")
     else .error (.requestsError r.status))
  else .ok r.text

/-- `postShock(url, name, data, attr)`, lines 163-176.  A malformed
envelope on an `ok` response is reported with the 400
`'Unable to POST to SHOCK server'` error (the same shape as the
connection failure), not with the 415 protocol error of `getShock`; when
`rpost.ok` is false, `rpost.raise_for_status()` raises inside the message
interpolation as above. -/
def postShock (r : PostResponse) : Except PyExc Node :=
  if ¬ r.connects then
    .error (.httpError 400 "Unable to connect to SHOCK server")
  else
    match r.ok, r.json with
    | true, some rj =>
      match rj.s, rj.d, rj.e with
      | some s, some d, some e =>
        if e ≠ "" then .error (.httpError s ("SHOCK error: " ++ e))
        else .ok d
      | _, _, _ => .error (.httpError 400 "Unable to POST to SHOCK server")
    | true, none => .error (.httpError 400 "Unable to POST to SHOCK server")
    | false, _ => .error (.requestsError r.status)

/-! ## Python dicts as insertion-ordered association lists -/

/-- A Python dict with string keys, as the ordered list of its items. -/
abbrev Dict (α : Type) := List (String × α)

/-- The key view of a dict (its iteration order). -/
def keys {α : Type} (m : Dict α) : List String := m.map (fun p => p.1)

/-- `k in d`. -/
def hasKey {α : Type} (m : Dict α) (k : String) : Bool :=
  m.any (fun p => p.1 = k)

/-- `d[k] = v`: replace in place when the key exists, append otherwise. -/
def pySet {α : Type} (m : Dict α) (k : String) (v : α) : Dict α :=
  if hasKey m k then m.map (fun p => if p.1 = k then (k, v) else p)
  else m ++ [(k, v)]

/-- `d[k]`, as an option (`none` would raise `KeyError`). -/
def pyGet {α : Type} (m : Dict α) (k : String) : Option α :=
  (m.find? (fun p => p.1 = k)).map (fun p => p.2)

/-- `del d[k]` on a present key. -/
def pyDelete {α : Type} (m : Dict α) (k : String) : Dict α :=
  m.filter (fun p => p.1 ≠ k)

/-- The manager's mutable state: `self.mapping` (uuid → notebook name) and
`self.shock_map` (uuid → winning store node). -/
structure NBState where
  mapping : Dict String
  shock_map : Dict Node
  deriving Repr, DecidableEq

/-! ## Lexicographic string comparison

Python compares strings lexicographically by code point; `sorted` with a
string key uses this order.  `charsLe` is that comparison on the character
lists of two strings. -/

/-- Lexicographic `≤` on character lists. -/
def charsLe : List Char → List Char → Bool
  | [], _ => true
  | _ :: _, [] => false
  | a :: as, b :: bs => if a = b then charsLe as bs else decide (a < b)

/-- Lexicographic `≤` on strings (Python's string comparison). -/
def strLe (s t : String) : Bool := charsLe s.data t.data

/-! ## Reconciliation: `load_notebook_names` (lines 42-67)

The Python is:

    self.mapping = {}
    self.shock_map = {}
    nb_vers = defaultdict(list)
    query_res = self.getShock(query_url, 'json')
    if query_res is not None:
        for node in query_res:
            if (node['file']['size'] == 0) or ('deleted' in node['attributes']):
                continue
            nb_vers[ node['attributes']['uuid'] ].append(node)
    for uuid in nb_vers.iterkeys():
        nodes = sorted(nb_vers[uuid], key=lambda x: x['attributes']['created'], reverse=True)
        self.mapping[uuid] = nodes[0]['attributes']['name']
        self.shock_map[uuid] = nodes[0]

The `defaultdict` pass groups the surviving nodes by uuid, each group in
listing order, and its key iteration enumerates every surviving uuid once;
the embedding uses listing-filtering for the groups and first-appearance
order for the keys (a Python 2 dict iterates in some fixed unspecified
order; first appearance is the deterministic model of it).  `sorted` with
`reverse=True` is a stable descending sort on the `created` key and raises
`KeyError` when a group member has no `created` attribute; `nodes[0]` would
raise `IndexError` on an empty group (which never arises). -/

/-- Nodes kept by the filtering step: nonzero size and no `deleted` tag. -/
def survivors (nodes : List Node) : List Node :=
  nodes.filter (fun n => !(n.size == 0 || n.attributes.deleted))

/-- First-appearance deduplication, the embedded iteration order of
`nb_vers.iterkeys()`. -/
def firstOccurAux (seen : List String) : List String → List String
  | [] => []
  | u :: us =>
    if u ∈ seen then firstOccurAux seen us
    else u :: firstOccurAux (u :: seen) us

/-- The distinct values of a list, each at its first appearance. -/
def firstOccur (l : List String) : List String := firstOccurAux [] l

/-- The group of one uuid: the surviving nodes carrying it, in listing
order (exactly what the `defaultdict(list)` pass accumulates). -/
def groupOf (surv : List Node) (u : String) : List Node :=
  surv.filter (fun n => n.attributes.uuid = u)

/-- The sort key `x['attributes']['created']` once its presence is
established. -/
def createdKey (n : Node) : String := n.attributes.created.getD ""

/-- The comparison of `sorted(..., key=..., reverse=True)`: `a` may sit
before `b` iff `b`'s key is `≤` `a`'s. -/
def createdGe (a b : Node) : Bool := strLe (createdKey b) (createdKey a)

/-- `sorted(group, key=lambda x: x['attributes']['created'], reverse=True)`:
a stable descending sort; computing the key of a node without a `created`
attribute raises `KeyError`. -/
def sortGroup (grp : List Node) : Except PyExc (List Node) :=
  if grp.all (fun n => n.attributes.created.isSome) then
    .ok (grp.mergeSort createdGe)
  else .error (.keyError "created")

/-- The first element of the sorted group, when the group is nonempty and
every member carries `created`. -/
def winner? (surv : List Node) (u : String) : Option Node :=
  ((groupOf surv u).mergeSort createdGe).head?

/-- The `for uuid in nb_vers.iterkeys()` loop: one iteration per uuid,
each setting both dict entries from the head of the sorted group.  An
exception (`KeyError` from the sort key, `IndexError` from `nodes[0]`)
leaves the dicts as built so far. -/
def buildMaps (surv : List Node) : List String → NBState → NBState × Option PyExc
  | [], st => (st, none)
  | u :: us, st =>
    match sortGroup (groupOf surv u) with
    | .error ex => (st, some ex)
    | .ok sortedNodes =>
      match sortedNodes.head? with
      | none => (st, some .indexError)
      | some w =>
        buildMaps surv us
          ⟨pySet st.mapping u w.attributes.name, pySet st.shock_map u w⟩

/-- `load_notebook_names` (lines 42-67).  The prior state is an argument
only to record that the method begins by clearing both dicts: the result
never depends on it.  The second component is the exception the call
raises, if any; the first is the state the two dicts are left in. -/
def load_notebook_names (prior : NBState) (r : Response) : NBState × Option PyExc :=
  match getShock r with
  | .error ex => (⟨[], []⟩, some ex)
  | .ok query_res =>
    let surv := survivors (query_res.getD [])
    buildMaps surv (firstOccur (surv.map (fun n => n.attributes.uuid))) ⟨[], []⟩

/-! ## The remaining notebook operations -/

/-- `list_notebooks` (lines 69-75): the mapping's items as
`(notebook_id, name)` records, stably sorted by name. -/
def list_notebooks (st : NBState) : List (String × String) :=
  st.mapping.mergeSort (fun a b => strLe a.2 b.2)

/-- `notebook_exists` (lines 84-89). -/
def notebook_exists (st : NBState) (notebook_id : String) : Bool :=
  hasKey st.mapping notebook_id && hasKey st.shock_map notebook_id

/-- `delete_notebook_id` (lines 77-82): `del self.mapping[notebook_id]`
then `del self.shock_map[notebook_id]`; a `del` of an absent key raises
`KeyError`, leaving what was already deleted deleted. -/
def delete_notebook_id (st : NBState) (notebook_id : String) :
    NBState × Option PyExc :=
  if hasKey st.mapping notebook_id then
    if hasKey st.shock_map notebook_id then
      (⟨pyDelete st.mapping notebook_id, pyDelete st.shock_map notebook_id⟩, none)
    else (⟨pyDelete st.mapping notebook_id, st.shock_map⟩, some (.keyError notebook_id))
  else (st, some (.keyError notebook_id))

/-- `delete_notebook` (lines 138-143): a guarded `delete_notebook_id`.
It takes no store argument because it performs no remote operation. -/
def delete_notebook (st : NBState) (notebook_id : String) :
    NBState × Except PyExc Unit :=
  if ¬ notebook_exists st notebook_id then
    (st, .error (.httpError 404 "Notebook does not exist"))
  else
    let r := delete_notebook_id st notebook_id
    match r.2 with
    | none => (r.1, .ok ())
    | some ex => (r.1, .error ex)

/-- `last_modified` as returned by `read_notebook_object`, line 106: either
`dateutil.parser.parse(dt)` of a nonempty `created` string, or — when
`created` is present but falsy — the string `datetime.datetime.now().isoformat()`
(the two branches genuinely return values of different Python types). -/
inductive LastModified where
  | parsed (dt : String)
  | wallClock (now : String)
  deriving Repr, DecidableEq

/-- The metadata block of a notebook object (`nb.metadata`); each field is
`none` when the attribute is absent. -/
structure NBMeta where
  name : Option String
  created : Option String
  user : Option String
  type : Option String
  uuid : Option String
  deriving Repr, DecidableEq

/-- A notebook object: its metadata and its (opaque) cell content. -/
structure NB where
  metadata : NBMeta
  cells : String
  deriving Repr, DecidableEq

/-- `read_notebook_object` (lines 91-107).  `fetch` is the store's response
to the `?download` GET; `decode` is `current.reads(·, 'json')`, `none`
marking a parse failure; `now` is the wall clock at the call.  Line 105
reads `self.shock_map[notebook_id]['attributes']['created']` outside every
`try`, so an absent `created` key raises `KeyError` rather than reaching
the fallback (which fires only when the value is present but falsy). -/
def read_notebook_object (st : NBState) (notebook_id : String)
    (fetch : Response) (decode : String → Option NB) (now : String) :
    Except PyExc (LastModified × NB) :=
  if ¬ notebook_exists st notebook_id then
    .error (.httpError 404 "Notebook does not exist")
  else
    match pyGet st.shock_map notebook_id with
    | none => .error (.keyError notebook_id)
    | some node =>
      match getShockData fetch with
      | .error _ => .error (.httpError 500 "Notebook cannot be read")
      | .ok node_data =>
        match decode node_data with
        | none => .error (.httpError 500 "Unreadable JSON notebook")
        | some nb =>
          match node.attributes.created with
          | none => .error (.keyError "created")
          | some dt =>
            if dt ≠ "" then .ok (.parsed dt, nb) else .ok (.wallClock now, nb)

/-- Modelled from the spec: `new_notebook_id` lives in the base class
`NotebookManager` (`nbmanager.py`), which is not among the sources here.
The spec's id-generator boundary is `NewId(name) → documentId`, opaque and
collision-free, and a freshly minted id is "treated as a new logical
document — in this case the write must succeed unconditionally (new
documents always 'exist' once assigned an id)": minting registers the new
id in the mapping under the notebook's name and returns it.  The fresh id
itself is an argument (`freshId`); its freshness is the generator's
collision-freedom contract. -/
def new_notebook_id (st : NBState) (freshId : String) (name : String) :
    NBState × String :=
  (⟨pySet st.mapping freshId name, st.shock_map⟩, freshId)

/-- What `write_notebook_object` leaves behind: the manager state, the
notebook object (whose metadata the call mutates in place), and the
returned id or raised exception. -/
structure WriteOut where
  state : NBState
  nb : NB
  result : Except PyExc String
  deriving Repr, DecidableEq

/-- `write_notebook_object` (lines 109-136).  `user` is `self.shock_user`;
`now` is `datetime.datetime.now().isoformat()`; `encodeOk` is whether
`current.writes` / `json.dumps` succeed; `post` is the store's response to
the node creation.  The metadata stamping of lines 118-121 happens after
minting but before the existence check of line 124, and a failure of the
encode/POST block is re-raised as the 400 "saving" error (line 131-132
catches the `web.HTTPError` of `postShock` too). -/
def write_notebook_object (st : NBState) (nb : NB) (notebook_id : Option String)
    (freshId now user : String) (encodeOk : Bool) (post : PostResponse) :
    WriteOut :=
  match nb.metadata.name with
  | none => ⟨st, nb, .error (.httpError 400 "Missing notebook name")⟩
  | some new_name =>
    let minted :=
      match notebook_id with
      | none => new_notebook_id st freshId new_name
      | some i => (st, i)
    let st1 := minted.1
    let nid := minted.2
    let meta1 : NBMeta :=
      ⟨nb.metadata.name, some now,
        some (if user = "" then "public" else user), some "ipynb", some nid⟩
    let nb1 : NB := ⟨meta1, nb.cells⟩
    if ¬ hasKey st1.mapping nid then
      ⟨st1, nb1, .error (.httpError 404 "Notebook does not exist")⟩
    else if ¬ encodeOk then
      ⟨st1, nb1, .error (.httpError 400 "Unexpected error while saving notebook")⟩
    else
      match postShock post with
      | .error _ =>
        ⟨st1, nb1, .error (.httpError 400 "Unexpected error while saving notebook")⟩
      | .ok node =>
        ⟨⟨pySet st1.mapping nid new_name, pySet st1.shock_map nid node⟩, nb1, .ok nid⟩

/-- A throwaway node, the default of `winnerD` (never reached when the
group is nonempty). -/
def defNode : Node := ⟨"", 0, ⟨"", "", none, false⟩⟩

/-- The winner of a uuid group as a total function (meaningful whenever
the group is nonempty). -/
def winnerD (surv : List Node) (u : String) : Node :=
  (winner? surv u).getD defNode

/-- The invariant of claim C9: the two dicts index the same uuids, in the
same order. -/
def sameKeys (st : NBState) : Prop := keys st.mapping = keys st.shock_map

/-! ## Concrete fixtures (used by witnesses and counterexamples) -/

/-- An early version of document `u1`. -/
def nA : Node := ⟨"s1", 10, ⟨"u1", "alpha", some "2012-01-01T00:00:00", false⟩⟩

/-- A later version of document `u1` (the winner of its group). -/
def nB : Node := ⟨"s2", 12, ⟨"u1", "beta", some "2012-06-01T00:00:00", false⟩⟩

/-- An incomplete upload: `sizeBytes = 0`. -/
def nZ : Node := ⟨"s3", 0, ⟨"u2", "empty", some "2012-02-02T00:00:00", false⟩⟩

/-- A tombstone: carries the `deleted` attribute. -/
def nD : Node := ⟨"s4", 3, ⟨"u3", "gone", some "2012-03-03T00:00:00", true⟩⟩

/-- A single-version document `u4`. -/
def nS : Node := ⟨"s5", 7, ⟨"u4", "solo", some "2012-04-04T00:00:00", false⟩⟩

/-- A well-formed successful listing response carrying `nodes`. -/
def listingOk (nodes : List Node) : Response :=
  ⟨true, true, 200, "body", some ⟨some 200, some (some nodes), some ""⟩⟩

/-- A well-formed successful creation response echoing node `n`. -/
def postOk (n : Node) : PostResponse :=
  ⟨true, true, 200, some ⟨some 200, some n, some ""⟩⟩

/-- A successful raw download response whose body is `s`. -/
def dataOk (s : String) : Response := ⟨true, true, 200, s, none⟩

/-- A notebook object carrying only a name. -/
def nbW : NB := ⟨⟨some "mynb", none, none, none, none⟩, "cells"⟩

/-- A node whose attributes lack the `created` key entirely. -/
def nNoCreated : Node := ⟨"s6", 5, ⟨"u6", "nameless-time", none, false⟩⟩

/-! ## Named pieces of `write_notebook_object`'s control flow

These three accessors name the values the write path holds when the
notebook carries a name: the state after the optional minting step, the
effective notebook id, and the notebook object after the metadata
stamping of lines 118-121.  `write_eq` (below) proves they describe
`write_notebook_object` exactly. -/

/-- The manager state after the optional `new_notebook_id` call. -/
def wSt1 (st : NBState) (oid : Option String) (freshId nm : String) : NBState :=
  match oid with
  | none => ⟨pySet st.mapping freshId nm, st.shock_map⟩
  | some _ => st

/-- The effective notebook id of a write: the given one, or the minted
fresh one. -/
def wNid (oid : Option String) (freshId : String) : String :=
  match oid with
  | none => freshId
  | some i => i

/-- The notebook object after the in-place metadata stamping. -/
def wNb1 (nb : NB) (now user nid : String) : NB :=
  ⟨⟨nb.metadata.name, some now, some (if user = "" then "public" else user),
    some "ipynb", some nid⟩, nb.cells⟩

/-! ## Lemmas: the lexicographic order -/

theorem charsLe_refl (as : List Char) : charsLe as as = true := by
  induction as with
  | nil => rfl
  | cons a as ih => simp [charsLe, ih]

theorem charsLe_total (as bs : List Char) :
    charsLe as bs = true ∨ charsLe bs as = true := by
  induction as generalizing bs with
  | nil => exact Or.inl rfl
  | cons a as ih =>
    cases bs with
    | nil => exact Or.inr rfl
    | cons b bs =>
      by_cases hab : a = b
      · subst hab
        rcases ih bs with h | h
        · exact Or.inl (by simpa [charsLe] using h)
        · exact Or.inr (by simpa [charsLe] using h)
      · have hba : b ≠ a := fun e => hab e.symm
        rcases lt_trichotomy a b with h | h | h
        · exact Or.inl (by simp [charsLe, hab, h])
        · exact absurd h hab
        · exact Or.inr (by simp [charsLe, hba, h])

theorem charsLe_trans (as bs cs : List Char) (h1 : charsLe as bs = true)
    (h2 : charsLe bs cs = true) : charsLe as cs = true := by
  induction as generalizing bs cs with
  | nil => rfl
  | cons a as ih =>
    cases bs with
    | nil => simp [charsLe] at h1
    | cons b bs =>
      cases cs with
      | nil => simp [charsLe] at h2
      | cons c cs =>
        by_cases hab : a = b
        · subst hab
          by_cases hac : a = c
          · subst hac
            simp only [charsLe, if_pos rfl] at h1 h2 ⊢
            exact ih bs cs h1 h2
          · simp only [charsLe, if_pos rfl] at h1
            simp only [charsLe, if_neg hac] at h2 ⊢
            exact h2
        · simp only [charsLe, if_neg hab, decide_eq_true_eq] at h1
          by_cases hbc : b = c
          · subst hbc
            simp only [charsLe, if_neg hab, decide_eq_true_eq]
            exact h1
          · simp only [charsLe, if_neg hbc, decide_eq_true_eq] at h2
            have hac : a < c := lt_trans h1 h2
            simp only [charsLe, if_neg (ne_of_lt hac), decide_eq_true_eq]
            exact hac

theorem createdGe_refl (a : Node) : createdGe a a = true :=
  charsLe_refl _

theorem createdGe_trans (a b c : Node) (h1 : createdGe a b = true)
    (h2 : createdGe b c = true) : createdGe a c = true :=
  charsLe_trans _ _ _ h2 h1

theorem createdGe_total (a b : Node) : (createdGe a b || createdGe b a) = true := by
  rcases charsLe_total (createdKey b).data (createdKey a).data with h | h <;>
    simp [createdGe, strLe, h]

/-! ## Lemmas: dicts -/

theorem hasKey_iff {α : Type} (m : Dict α) (k : String) :
    hasKey m k = true ↔ k ∈ keys m := by
  simp only [hasKey, keys, List.any_eq_true, decide_eq_true_eq, List.mem_map]

theorem keys_pySet {α : Type} (m : Dict α) (k : String) (v : α) :
    keys (pySet m k v) = if k ∈ keys m then keys m else keys m ++ [k] := by
  by_cases h : k ∈ keys m
  · rw [if_pos h]
    unfold pySet
    rw [if_pos ((hasKey_iff m k).mpr h)]
    unfold keys
    rw [List.map_map]
    apply List.map_congr_left
    intro p _
    by_cases h' : p.1 = k
    · simp [Function.comp, h']
    · simp [Function.comp, h']
  · rw [if_neg h]
    unfold pySet
    rw [if_neg (fun hh => h ((hasKey_iff m k).mp hh))]
    simp [keys]

theorem hasKey_pySet_self {α : Type} (m : Dict α) (k : String) (v : α) :
    hasKey (pySet m k v) k = true := by
  rw [hasKey_iff, keys_pySet]
  by_cases h : k ∈ keys m <;> simp [h]

theorem keys_pyDelete {α : Type} (m : Dict α) (k : String) :
    keys (pyDelete m k) = (keys m).filter (fun x => x ≠ k) := by
  induction m with
  | nil => rfl
  | cons p m ih =>
    unfold pyDelete keys at ih ⊢
    rw [List.map_cons, List.filter_cons, List.filter_cons]
    by_cases h : p.1 = k
    · rw [if_neg (by simp [h]), if_neg (by simp [h])]
      exact ih
    · rw [if_pos (by simp [h]), if_pos (by simp [h]), List.map_cons, ih]

theorem hasKey_pyDelete_self {α : Type} (m : Dict α) (k : String) :
    hasKey (pyDelete m k) k = false := by
  rw [← Bool.not_eq_true, hasKey_iff, keys_pyDelete]
  simp

/-! ## Lemmas: first-appearance order and uuid groups -/

theorem mem_firstOccurAux (u : String) (l : List String) (seen : List String) :
    u ∈ firstOccurAux seen l ↔ u ∈ l ∧ u ∉ seen := by
  induction l generalizing seen with
  | nil => simp [firstOccurAux]
  | cons v vs ih =>
    by_cases hv : v ∈ seen
    · rw [show firstOccurAux seen (v :: vs) = firstOccurAux seen vs from by
        simp [firstOccurAux, hv]]
      rw [ih]
      constructor
      · rintro ⟨h1, h2⟩; exact ⟨List.mem_cons_of_mem _ h1, h2⟩
      · rintro ⟨h1, h2⟩
        rcases List.mem_cons.mp h1 with rfl | h1
        · exact absurd hv h2
        · exact ⟨h1, h2⟩
    · rw [show firstOccurAux seen (v :: vs) = v :: firstOccurAux (v :: seen) vs from by
        simp [firstOccurAux, hv]]
      simp only [List.mem_cons, ih]
      constructor
      · rintro (rfl | ⟨h1, h2⟩)
        · exact ⟨Or.inl rfl, hv⟩
        · exact ⟨Or.inr h1, fun hs => h2 (Or.inr hs)⟩
      · rintro ⟨h1 | h1, h2⟩
        · exact Or.inl h1
        · by_cases huv : u = v
          · exact Or.inl huv
          · exact Or.inr ⟨h1, fun hs => hs.elim huv h2⟩

theorem nodup_firstOccurAux (l : List String) (seen : List String) :
    (firstOccurAux seen l).Nodup := by
  induction l generalizing seen with
  | nil => simp [firstOccurAux]
  | cons v vs ih =>
    by_cases hv : v ∈ seen
    · rw [show firstOccurAux seen (v :: vs) = firstOccurAux seen vs from by
        simp [firstOccurAux, hv]]
      exact ih seen
    · rw [show firstOccurAux seen (v :: vs) = v :: firstOccurAux (v :: seen) vs from by
        simp [firstOccurAux, hv]]
      rw [List.nodup_cons]
      refine ⟨fun hm => ?_, ih (v :: seen)⟩
      exact ((mem_firstOccurAux v vs (v :: seen)).mp hm).2 (List.mem_cons_self v seen)

theorem mem_firstOccur (u : String) (l : List String) :
    u ∈ firstOccur l ↔ u ∈ l := by
  rw [firstOccur, mem_firstOccurAux]
  simp

theorem nodup_firstOccur (l : List String) : (firstOccur l).Nodup :=
  nodup_firstOccurAux l []

theorem keys_map_pair {β : Type} (f : String → β) (us : List String) :
    keys (us.map (fun u => (u, f u))) = us := by
  induction us with
  | nil => rfl
  | cons u us ih =>
    simp only [keys, List.map_cons, List.map_map] at ih ⊢
    rw [ih]

theorem mem_groupOf {surv : List Node} {u : String} {n : Node} :
    n ∈ groupOf surv u ↔ n ∈ surv ∧ n.attributes.uuid = u := by
  simp [groupOf, List.mem_filter]

theorem mem_survivors {nodes : List Node} {n : Node} :
    n ∈ survivors nodes ↔
      n ∈ nodes ∧ ¬(n.size = 0 ∨ n.attributes.deleted = true) := by
  simp only [survivors, List.mem_filter, Bool.not_eq_true', Bool.or_eq_false_iff,
    beq_eq_false_iff_ne, ne_eq, Bool.not_eq_true]
  constructor
  · rintro ⟨h1, h2, h3⟩
    exact ⟨h1, by rintro (h | h) <;> simp_all⟩
  · rintro ⟨h1, h2⟩
    push_neg at h2
    exact ⟨h1, by simpa using h2.1, by simpa using h2.2⟩

/-! ## Lemmas: the winner of a uuid group -/

theorem winner_mem {surv : List Node} {u : String} {w : Node}
    (h : winner? surv u = some w) : w ∈ groupOf surv u := by
  unfold winner? at h
  have hm : w ∈ (groupOf surv u).mergeSort createdGe := by
    cases e : (groupOf surv u).mergeSort createdGe with
    | nil => rw [e] at h; simp at h
    | cons x xs =>
      rw [e] at h
      simp only [List.head?_cons, Option.some.injEq] at h
      subst h
      exact List.mem_cons_self _ _
  exact (List.mergeSort_perm (groupOf surv u) createdGe).mem_iff.mp hm

theorem winner_max {surv : List Node} {u : String} {w : Node}
    (h : winner? surv u = some w) :
    ∀ m ∈ groupOf surv u, createdGe w m = true := by
  intro m hm
  unfold winner? at h
  have hp := List.sorted_mergeSort createdGe_trans createdGe_total (groupOf surv u)
  have hm' : m ∈ (groupOf surv u).mergeSort createdGe :=
    (List.mergeSort_perm (groupOf surv u) createdGe).mem_iff.mpr hm
  cases e : (groupOf surv u).mergeSort createdGe with
  | nil => rw [e] at h; simp at h
  | cons x xs =>
    rw [e] at h
    simp only [List.head?_cons, Option.some.injEq] at h
    subst h
    rw [e] at hm' hp
    rcases List.mem_cons.mp hm' with rfl | hm''
    · exact createdGe_refl _
    · exact List.rel_of_pairwise_cons hp hm''

theorem winner_isSome {surv : List Node} {u : String}
    (h : ∃ n ∈ surv, n.attributes.uuid = u) :
    ∃ w, winner? surv u = some w := by
  obtain ⟨n, hn, hnu⟩ := h
  have hgrp : n ∈ groupOf surv u := mem_groupOf.mpr ⟨hn, hnu⟩
  have hne : (groupOf surv u).mergeSort createdGe ≠ [] := by
    intro e
    have hp := List.mergeSort_perm (groupOf surv u) createdGe
    rw [e] at hp
    rw [hp.symm.eq_nil] at hgrp
    exact absurd hgrp (List.not_mem_nil n)
  obtain ⟨w, ws, hw⟩ := List.exists_cons_of_ne_nil hne
  exact ⟨w, by unfold winner?; rw [hw]; rfl⟩

/-! ## The reconciliation loop in closed form -/

theorem buildMaps_eq (surv : List Node) (us : List String) (st : NBState)
    (hwf : ∀ n ∈ surv, n.attributes.created.isSome = true)
    (hne : ∀ u ∈ us, ∃ n ∈ surv, n.attributes.uuid = u)
    (hnd : us.Nodup)
    (hfresh : ∀ u ∈ us, u ∉ keys st.mapping ∧ u ∉ keys st.shock_map) :
    buildMaps surv us st =
      (⟨st.mapping ++ us.map (fun u => (u, (winnerD surv u).attributes.name)),
        st.shock_map ++ us.map (fun u => (u, winnerD surv u))⟩, none) := by
  induction us generalizing st with
  | nil => simp [buildMaps]
  | cons u us ih =>
    obtain ⟨w, hwinner⟩ := winner_isSome (hne u (List.mem_cons_self u us))
    have hwD : winnerD surv u = w := by unfold winnerD; rw [hwinner]; rfl
    have hall : (groupOf surv u).all (fun n => n.attributes.created.isSome) = true := by
      rw [List.all_eq_true]
      intro x hx
      exact hwf x (mem_groupOf.mp hx).1
    have hsort : sortGroup (groupOf surv u) =
        .ok ((groupOf surv u).mergeSort createdGe) := by
      unfold sortGroup
      rw [if_pos hall]
    have hhead : ((groupOf surv u).mergeSort createdGe).head? = some w := hwinner
    have hfreshu := hfresh u (List.mem_cons_self u us)
    have hset1 : pySet st.mapping u w.attributes.name =
        st.mapping ++ [(u, w.attributes.name)] := by
      unfold pySet
      rw [if_neg (fun hh => hfreshu.1 ((hasKey_iff _ _).mp hh))]
    have hset2 : pySet st.shock_map u w = st.shock_map ++ [(u, w)] := by
      unfold pySet
      rw [if_neg (fun hh => hfreshu.2 ((hasKey_iff _ _).mp hh))]
    have step : buildMaps surv (u :: us) st =
        buildMaps surv us
          ⟨st.mapping ++ [(u, w.attributes.name)], st.shock_map ++ [(u, w)]⟩ := by
      simp only [buildMaps, hsort, hhead, hset1, hset2]
    rw [step]
    have hu_not : u ∉ us := (List.nodup_cons.mp hnd).1
    rw [ih _ (fun v hv => hne v (List.mem_cons_of_mem u hv))
      (List.nodup_cons.mp hnd).2
      (by
        intro v hv
        have hvu : v ≠ u := fun e => hu_not (e ▸ hv)
        have hf := hfresh v (List.mem_cons_of_mem u hv)
        constructor
        · simp only [keys, List.map_append, List.mem_append]
          rintro (h | h)
          · exact hf.1 h
          · simp at h
            exact hvu h
        · simp only [keys, List.map_append, List.mem_append]
          rintro (h | h)
          · exact hf.2 h
          · simp at h
            exact hvu h)]
    simp [hwD, List.append_assoc]

/-- `load_notebook_names` on a successful listing, in closed form: the
surviving uuids in first-appearance order, each paired with the winner of
its group. -/
theorem load_eq (prior : NBState) (r : Response) (nodes : List Node)
    (hok : getShock r = .ok (some nodes))
    (hwf : ∀ n ∈ survivors nodes, n.attributes.created.isSome = true) :
    load_notebook_names prior r =
      (⟨(firstOccur ((survivors nodes).map (fun n => n.attributes.uuid))).map
          (fun u => (u, (winnerD (survivors nodes) u).attributes.name)),
        (firstOccur ((survivors nodes).map (fun n => n.attributes.uuid))).map
          (fun u => (u, winnerD (survivors nodes) u))⟩, none) := by
  unfold load_notebook_names
  rw [hok]
  simp only [Option.getD_some]
  rw [buildMaps_eq (survivors nodes) _ ⟨[], []⟩ hwf
    (fun u hu => by
      have := (mem_firstOccur u _).mp hu
      simpa [List.mem_map, eq_comm] using this)
    (nodup_firstOccur _)
    (fun u _ => by simp [keys])]
  simp

/-- `write_notebook_object` in closed form, for a notebook that carries a
name. -/
theorem write_eq (st : NBState) (nb : NB) (oid : Option String)
    (freshId now user : String) (encodeOk : Bool) (post : PostResponse) (nm : String)
    (hname : nb.metadata.name = some nm) :
    write_notebook_object st nb oid freshId now user encodeOk post =
      (if ¬ hasKey (wSt1 st oid freshId nm).mapping (wNid oid freshId) then
        ⟨wSt1 st oid freshId nm, wNb1 nb now user (wNid oid freshId),
          .error (.httpError 404 "Notebook does not exist")⟩
      else if ¬ encodeOk then
        ⟨wSt1 st oid freshId nm, wNb1 nb now user (wNid oid freshId),
          .error (.httpError 400 "Unexpected error while saving notebook")⟩
      else
        match postShock post with
        | .error _ =>
          ⟨wSt1 st oid freshId nm, wNb1 nb now user (wNid oid freshId),
            .error (.httpError 400 "Unexpected error while saving notebook")⟩
        | .ok node =>
          ⟨⟨pySet (wSt1 st oid freshId nm).mapping (wNid oid freshId) nm,
            pySet (wSt1 st oid freshId nm).shock_map (wNid oid freshId) node⟩,
            wNb1 nb now user (wNid oid freshId), .ok (wNid oid freshId)⟩) := by
  cases oid <;>
    · unfold write_notebook_object new_notebook_id wSt1 wNid wNb1
      rw [hname]

/-- Every path of the reconciliation loop keeps the two dicts' key lists
equal (each iteration updates both or neither). -/
theorem buildMaps_sameKeys (surv : List Node) (us : List String) (st : NBState)
    (h : sameKeys st) : sameKeys (buildMaps surv us st).1 := by
  induction us generalizing st with
  | nil => exact h
  | cons u us ih =>
    cases hsor : sortGroup (groupOf surv u) with
    | error ex =>
      have he : buildMaps surv (u :: us) st = (st, some ex) := by
        simp only [buildMaps, hsor]
      rw [he]
      exact h
    | ok sorted =>
      cases hh : sorted.head? with
      | none =>
        have he : buildMaps surv (u :: us) st = (st, some .indexError) := by
          simp only [buildMaps, hsor, hh]
        rw [he]
        exact h
      | some w =>
        have he : buildMaps surv (u :: us) st =
            buildMaps surv us
              ⟨pySet st.mapping u w.attributes.name, pySet st.shock_map u w⟩ := by
          simp only [buildMaps, hsor, hh]
        rw [he]
        apply ih
        unfold sameKeys at h ⊢
        rw [keys_pySet, keys_pySet, h]

/-! ## The claims -/

/-- C1: for every store listing, `load_notebook_names` produces exactly one
mapping entry per uuid group surviving the filtering (no `sizeBytes == 0`,
no `deleted` attribute), the entry's backing object is the group member
with the maximum `created` value (first element of the stable descending
sort), and no filtered-out object is selected or counted as a group.  The
listing is assumed well formed in that every surviving node carries a
`created` attribute (the store's data-model invariant; without it the sort
key raises `KeyError`). -/
theorem C1_rebuild_latest_wins (prior : NBState) (r : Response) (nodes : List Node)
    (hok : getShock r = .ok (some nodes))
    (hwf : ∀ n ∈ survivors nodes, n.attributes.created.isSome = true) :
    (load_notebook_names prior r).2 = none ∧
    keys (load_notebook_names prior r).1.mapping =
      firstOccur ((survivors nodes).map (fun n => n.attributes.uuid)) ∧
    (keys (load_notebook_names prior r).1.mapping).Nodup ∧
    keys (load_notebook_names prior r).1.shock_map =
      keys (load_notebook_names prior r).1.mapping ∧
    (∀ u, u ∈ keys (load_notebook_names prior r).1.mapping ↔
      ∃ n ∈ survivors nodes, n.attributes.uuid = u) ∧
    (∀ p ∈ (load_notebook_names prior r).1.shock_map,
      p.2 ∈ survivors nodes ∧ p.2.attributes.uuid = p.1 ∧
      ∀ m ∈ survivors nodes, m.attributes.uuid = p.1 →
        strLe (createdKey m) (createdKey p.2) = true) ∧
    (∀ p ∈ (load_notebook_names prior r).1.mapping,
      ∃ w, (p.1, w) ∈ (load_notebook_names prior r).1.shock_map ∧
        p.2 = w.attributes.name) ∧
    (∀ n ∈ nodes, n.size = 0 ∨ n.attributes.deleted = true →
      ∀ p ∈ (load_notebook_names prior r).1.shock_map, p.2 ≠ n) := by
  rw [load_eq prior r nodes hok hwf]
  refine ⟨rfl, ?_, ?_, ?_, ?_, ?_, ?_, ?_⟩
  · exact keys_map_pair _ _
  · rw [keys_map_pair]
    exact nodup_firstOccur _
  · rw [keys_map_pair, keys_map_pair]
  · intro u
    rw [keys_map_pair, mem_firstOccur]
    simp only [List.mem_map]
  · intro p hp
    simp only [List.mem_map] at hp
    obtain ⟨u, hu, rfl⟩ := hp
    have hex : ∃ n ∈ survivors nodes, n.attributes.uuid = u := by
      have := (mem_firstOccur u _).mp hu
      simpa [List.mem_map, eq_comm] using this
    obtain ⟨w, hw⟩ := winner_isSome hex
    have hwD : winnerD (survivors nodes) u = w := by unfold winnerD; rw [hw]; rfl
    have hmem := mem_groupOf.mp (winner_mem hw)
    refine ⟨by simpa [hwD] using hmem.1, by simpa [hwD] using hmem.2, ?_⟩
    intro m hm hmu
    have : createdGe w m = true := winner_max hw m (mem_groupOf.mpr ⟨hm, hmu⟩)
    simpa [hwD, createdGe] using this
  · intro p hp
    simp only [List.mem_map] at hp
    obtain ⟨u, hu, rfl⟩ := hp
    exact ⟨winnerD (survivors nodes) u, List.mem_map.mpr ⟨u, hu, rfl⟩, rfl⟩
  · intro n _ hbad p hp hpn
    simp only [List.mem_map] at hp
    obtain ⟨u, hu, rfl⟩ := hp
    have hex : ∃ k ∈ survivors nodes, k.attributes.uuid = u := by
      have := (mem_firstOccur u _).mp hu
      simpa [List.mem_map, eq_comm] using this
    obtain ⟨w, hw⟩ := winner_isSome hex
    have hwD : winnerD (survivors nodes) u = w := by unfold winnerD; rw [hw]; rfl
    have hmem := mem_groupOf.mp (winner_mem hw)
    have hsurv : n ∈ survivors nodes := by
      rw [hwD] at hpn
      rw [← hpn]
      exact hmem.1
    exact (mem_survivors.mp hsurv).2 hbad

/-- Witness for C1: a five-node listing exercising a two-version group, a
zero-size node, a tombstone and a singleton group. -/
theorem C1_rebuild_latest_wins_witness :
    (load_notebook_names ⟨[], []⟩ (listingOk [nA, nB, nZ, nD, nS])).2 = none ∧
    keys (load_notebook_names ⟨[], []⟩ (listingOk [nA, nB, nZ, nD, nS])).1.mapping =
      firstOccur ((survivors [nA, nB, nZ, nD, nS]).map (fun n => n.attributes.uuid)) :=
  ⟨(C1_rebuild_latest_wins ⟨[], []⟩ (listingOk [nA, nB, nZ, nD, nS])
      [nA, nB, nZ, nD, nS] (by decide) (by decide)).1,
   (C1_rebuild_latest_wins ⟨[], []⟩ (listingOk [nA, nB, nZ, nD, nS])
      [nA, nB, nZ, nD, nS] (by decide) (by decide)).2.1⟩

/-- C2 counterexample: the claim says a failed store listing leaves the
prior mapping completely untouched, but `load_notebook_names` clears both
dicts before issuing the query (lines 49-50 precede line 56), so a failed
rebuild leaves the index empty, not as it was. -/
theorem C2_counterexample :
    ((load_notebook_names ⟨[("u1", "alpha")], [("u1", nA)]⟩
        ⟨false, false, 0, "", none⟩).2).isSome = true ∧
    (load_notebook_names ⟨[("u1", "alpha")], [("u1", nA)]⟩
        ⟨false, false, 0, "", none⟩).1 ≠ ⟨[("u1", "alpha")], [("u1", nA)]⟩ := by
  decide

/-- C2 amended: if the store listing step fails, the rebuild fails and the
prior mapping has been discarded — both dicts are left cleared to empty
(the clearing is wholesale, not per-entry). -/
theorem C2_failed_rebuild_clears (st : NBState) (r : Response) (e : PyExc)
    (h : getShock r = .error e) :
    load_notebook_names st r = (⟨[], []⟩, some e) := by
  unfold load_notebook_names
  rw [h]

/-- Witness for the amended C2: a connection failure against a populated
index. -/
theorem C2_failed_rebuild_clears_witness :
    load_notebook_names ⟨[("u1", "alpha")], [("u1", nA)]⟩ ⟨false, false, 0, "", none⟩ =
      (⟨[], []⟩, some (.httpError 400 "Unable to connect to SHOCK server")) :=
  C2_failed_rebuild_clears ⟨[("u1", "alpha")], [("u1", nA)]⟩
    ⟨false, false, 0, "", none⟩ _ (by decide)

/-- C8: a query that succeeds with zero matching objects (an empty `D`
list, or a JSON `null` `D`) makes the rebuild complete without error and
produce an empty mapping. -/
theorem C8_empty_listing (st : NBState) (r : Response)
    (h : getShock r = .ok (some []) ∨ getShock r = .ok none) :
    load_notebook_names st r = (⟨[], []⟩, none) := by
  rcases h with h | h <;>
    (unfold load_notebook_names; rw [h]; rfl)

/-- Witness for C8: an empty listing over a populated prior index. -/
theorem C8_empty_listing_witness :
    load_notebook_names ⟨[("u1", "alpha")], [("u1", nA)]⟩ (listingOk []) =
      (⟨[], []⟩, none) :=
  C8_empty_listing ⟨[("u1", "alpha")], [("u1", nA)]⟩ (listingOk []) (Or.inl (by decide))

/-- C3, evaluated at envelopes with a missing required field.  Both client
operations fail — neither ever proceeds as if successful — but not with
the typed 415 protocol error the claim names: `getShock` crashes with the
unbound-local `NameError` raised while interpolating the 415 message
(line 156 reads `e`, which is only assigned in the earlier `except`
clause), and `postShock` reports the malformed envelope with the 400
"Unable to POST" error of line 173, the same shape as its connection
failure. -/
theorem C3_missing_envelope_field :
    getShock ⟨true, true, 200, "body", some ⟨some 200, some (some []), none⟩⟩ =
      .error (.nameError "e") ∧
    getShock ⟨true, true, 200, "body", some ⟨none, some (some []), some ""⟩⟩ =
      .error (.nameError "e") ∧
    getShock ⟨true, true, 200, "body", some ⟨some 200, none, some ""⟩⟩ =
      .error (.nameError "e") ∧
    postShock ⟨true, true, 200, some ⟨some 200, some nB, none⟩⟩ =
      .error (.httpError 400 "Unable to POST to SHOCK server") ∧
    postShock ⟨true, true, 200, some ⟨none, some nB, some ""⟩⟩ =
      .error (.httpError 400 "Unable to POST to SHOCK server") ∧
    postShock ⟨true, true, 200, some ⟨some 200, none, some ""⟩⟩ =
      .error (.httpError 400 "Unable to POST to SHOCK server") := by
  decide

/-- C4: a write with no notebook id mints a fresh identifier (freshness is
the id generator's collision-freedom contract, hypothesis `hfresh`), can
never fail with the 404 "Notebook does not exist" error, and — when the
encode and store POST succeed — returns the minted id, which then exists.
`new_notebook_id` is modelled from the spec (the base class is not among
the sources). -/
theorem C4_write_new_document (st : NBState) (nb : NB)
    (nm freshId now user : String) (encodeOk : Bool) (post : PostResponse)
    (hname : nb.metadata.name = some nm)
    (hfresh : hasKey st.mapping freshId = false) :
    (∀ msg, (write_notebook_object st nb none freshId now user encodeOk post).result ≠
      .error (.httpError 404 msg)) ∧
    (∀ node, encodeOk = true → postShock post = .ok node →
      (write_notebook_object st nb none freshId now user encodeOk post).result =
        .ok freshId ∧
      notebook_exists
        (write_notebook_object st nb none freshId now user encodeOk post).state
        freshId = true) := by
  rw [write_eq st nb none freshId now user encodeOk post nm hname]
  unfold wSt1 wNid
  rw [if_neg (by simp [hasKey_pySet_self])]
  constructor
  · intro msg
    by_cases he : encodeOk = true
    · rw [if_neg (by simp [he])]
      cases hp : postShock post with
      | error e => simp
      | ok node => simp
    · rw [if_pos (by simpa using he)]
      simp
  · intro node he hp
    rw [if_neg (by simp [he]), hp]
    exact ⟨rfl, by simp [notebook_exists, hasKey_pySet_self]⟩

/-- Witness for C4: minting `u9` over an index that does not contain it,
with a successful creation. -/
theorem C4_write_new_document_witness :
    (write_notebook_object ⟨[("u1", "alpha")], [("u1", nA)]⟩ nbW none "u9"
        "2012-07-01T00:00:00" "" true (postOk nB)).result = .ok "u9" ∧
    notebook_exists
      (write_notebook_object ⟨[("u1", "alpha")], [("u1", nA)]⟩ nbW none "u9"
        "2012-07-01T00:00:00" "" true (postOk nB)).state "u9" = true :=
  (C4_write_new_document ⟨[("u1", "alpha")], [("u1", nA)]⟩ nbW "mynb" "u9"
      "2012-07-01T00:00:00" "" true (postOk nB) (by decide) (by decide)).2
    nB rfl (by decide)

unseal List.merge List.mergeSort in
/-- C5 counterexample: the claim says ties in `displayName` are broken by
`documentId`, making the order deterministic; but `list_notebooks` sorts
by name only (line 74), so with two entries both named `x`, held by the
mapping with the id `b` entry before the id `a` entry, the output keeps
`b` before `a` instead of the claimed id-ascending order. -/
theorem C5_counterexample :
    list_notebooks ⟨[("b", "x"), ("a", "x")], []⟩ = [("b", "x"), ("a", "x")] ∧
    list_notebooks ⟨[("b", "x"), ("a", "x")], []⟩ ≠ [("a", "x"), ("b", "x")] := by
  decide

/-- C5 amended: `list_notebooks` returns one `(notebook_id, name)` record
per mapping entry, sorted by name ascending; equal names are not reordered
by id (the sort is stable over the mapping's own iteration order), and the
operation reads only the in-memory mapping — its result is determined by
`st.mapping` alone and it takes no store response at all. -/
theorem C5_list_sorted_by_name (st : NBState) :
    (list_notebooks st).Perm st.mapping ∧
    List.Pairwise (fun a b => strLe a.2 b.2 = true) (list_notebooks st) ∧
    (∀ st' : NBState, st'.mapping = st.mapping →
      list_notebooks st' = list_notebooks st) := by
  refine ⟨List.mergeSort_perm _ _, ?_, ?_⟩
  · unfold list_notebooks
    exact @List.sorted_mergeSort (String × String) (fun a b => strLe a.2 b.2)
      (fun a b c h1 h2 => charsLe_trans _ _ _ h1 h2)
      (fun a b => by
        rcases charsLe_total a.2.data b.2.data with h | h <;> simp [strLe, h])
      st.mapping
  · intro st' hst
    unfold list_notebooks
    rw [hst]

/-- C6 counterexample: the claim says an absent `created` attribute makes
`read_notebook_object` substitute the wall clock; in fact line 105 raises
`KeyError` (it runs outside every `try`), and the wall-clock fallback
fires only when `created` is present but empty. -/
theorem C6_counterexample :
    read_notebook_object ⟨[("u6", "nameless-time")], [("u6", nNoCreated)]⟩ "u6"
        (dataOk "payload") (fun _ => some nbW) "2012-08-01T00:00:00" =
      .error (.keyError "created") ∧
    read_notebook_object ⟨[("u6", "nameless-time")], [("u6", nNoCreated)]⟩ "u6"
        (dataOk "payload") (fun _ => some nbW) "2012-08-01T00:00:00" ≠
      .ok (.wallClock "2012-08-01T00:00:00", nbW) := by
  decide

/-- C6 amended: for a mapped notebook whose fetch and decode succeed,
`lastModified` is the parsed `created` attribute when it is present and
nonempty; the current wall clock is substituted only when `created` is
present but empty; an absent `created` key makes the read raise
`KeyError`. -/
theorem C6_last_modified (st : NBState) (id : String) (node : Node)
    (fetch : Response) (decode : String → Option NB) (now txt : String) (nb : NB)
    (hex : notebook_exists st id = true)
    (hget : pyGet st.shock_map id = some node)
    (hfetch : getShockData fetch = .ok txt)
    (hdec : decode txt = some nb) :
    (∀ dt, node.attributes.created = some dt → dt ≠ "" →
      read_notebook_object st id fetch decode now = .ok (.parsed dt, nb)) ∧
    (node.attributes.created = some "" →
      read_notebook_object st id fetch decode now = .ok (.wallClock now, nb)) ∧
    (node.attributes.created = none →
      read_notebook_object st id fetch decode now = .error (.keyError "created")) := by
  refine ⟨?_, ?_, ?_⟩
  · intro dt hdt hne
    simp [read_notebook_object, hex, hget, hfetch, hdec, hdt, hne]
  · intro h0
    simp [read_notebook_object, hex, hget, hfetch, hdec, h0]
  · intro hnone
    simp [read_notebook_object, hex, hget, hfetch, hdec, hnone]

/-- Witness for the amended C6: reading `u1` returns the parsed `created`
stamp of its winning node. -/
theorem C6_last_modified_witness :
    read_notebook_object ⟨[("u1", "alpha")], [("u1", nA)]⟩ "u1" (dataOk "payload")
        (fun _ => some nbW) "2012-08-01T00:00:00" =
      .ok (.parsed "2012-01-01T00:00:00", nbW) :=
  (C6_last_modified ⟨[("u1", "alpha")], [("u1", nA)]⟩ "u1" nA (dataOk "payload")
      (fun _ => some nbW) "2012-08-01T00:00:00" "payload" nbW
      (by decide) (by decide) (by decide) rfl).1
    "2012-01-01T00:00:00" (by decide) (by decide)

/-- C7: deleting a mapped notebook removes only the in-memory entries
(afterwards it no longer exists), touches no store state — the operation
takes no store response at all — and a later rebuild whose listing still
carries a surviving node (nonzero size, no tombstone) with that uuid
restores an entry for it. -/
theorem C7_delete_is_local (st : NBState) (id : String)
    (h : notebook_exists st id = true) :
    (delete_notebook st id).2 = .ok () ∧
    notebook_exists (delete_notebook st id).1 id = false ∧
    (∀ (r : Response) (nodes : List Node),
      getShock r = .ok (some nodes) →
      (∀ n ∈ survivors nodes, n.attributes.created.isSome = true) →
      (∃ n ∈ survivors nodes, n.attributes.uuid = id) →
      notebook_exists (load_notebook_names (delete_notebook st id).1 r).1 id = true) := by
  have hpair : hasKey st.mapping id = true ∧ hasKey st.shock_map id = true := by
    simpa [notebook_exists, Bool.and_eq_true] using h
  have hm := hpair.1
  have hs := hpair.2
  have hdel : delete_notebook st id =
      (⟨pyDelete st.mapping id, pyDelete st.shock_map id⟩, .ok ()) := by
    unfold delete_notebook delete_notebook_id
    rw [h]
    simp [hm, hs]
  rw [hdel]
  refine ⟨rfl, ?_, ?_⟩
  · simp [notebook_exists, hasKey_pyDelete_self]
  · intro r nodes hok hwf hex
    rw [load_eq _ r nodes hok hwf]
    obtain ⟨n, hn, hnu⟩ := hex
    have hid : id ∈ firstOccur ((survivors nodes).map (fun k => k.attributes.uuid)) := by
      rw [mem_firstOccur]
      exact List.mem_map.mpr ⟨n, hn, hnu⟩
    simp only [notebook_exists]
    rw [Bool.and_eq_true]
    exact ⟨(hasKey_iff _ _).mpr (by rw [keys_map_pair]; exact hid),
      (hasKey_iff _ _).mpr (by rw [keys_map_pair]; exact hid)⟩

/-- Witness for C7: delete `u1`, then rebuild from a listing still
carrying its node. -/
theorem C7_delete_is_local_witness :
    (delete_notebook ⟨[("u1", "alpha")], [("u1", nA)]⟩ "u1").2 = .ok () ∧
    notebook_exists (delete_notebook ⟨[("u1", "alpha")], [("u1", nA)]⟩ "u1").1 "u1" =
      false ∧
    notebook_exists
      (load_notebook_names (delete_notebook ⟨[("u1", "alpha")], [("u1", nA)]⟩ "u1").1
        (listingOk [nA])).1 "u1" = true :=
  ⟨(C7_delete_is_local ⟨[("u1", "alpha")], [("u1", nA)]⟩ "u1" (by decide)).1,
   (C7_delete_is_local ⟨[("u1", "alpha")], [("u1", nA)]⟩ "u1" (by decide)).2.1,
   (C7_delete_is_local ⟨[("u1", "alpha")], [("u1", nA)]⟩ "u1" (by decide)).2.2
     (listingOk [nA]) [nA] (by decide) (by decide) (by decide)⟩

/-- C9: if the two dicts hold the same key list, every completed public
operation preserves that: any rebuild (each loop iteration writes both
dicts, and both are cleared together), a successful delete (both deleted),
and a successful write (both set); and `notebook_exists` holds exactly
when the id is a key of both dicts. -/
theorem C9_maps_share_keys (st : NBState) (h : sameKeys st) :
    (∀ r : Response, sameKeys (load_notebook_names st r).1) ∧
    (∀ id, (delete_notebook st id).2 = .ok () → sameKeys (delete_notebook st id).1) ∧
    (∀ (nb : NB) (oid : Option String) (freshId now user : String)
        (encodeOk : Bool) (post : PostResponse) (id : String),
      (write_notebook_object st nb oid freshId now user encodeOk post).result =
        .ok id →
      sameKeys (write_notebook_object st nb oid freshId now user encodeOk post).state) ∧
    (∀ id, notebook_exists st id = true ↔
      id ∈ keys st.mapping ∧ id ∈ keys st.shock_map) := by
  refine ⟨?_, ?_, ?_, ?_⟩
  · intro r
    cases hq : getShock r with
    | error e =>
      have he : load_notebook_names st r = (⟨[], []⟩, some e) := by
        unfold load_notebook_names
        rw [hq]
      rw [he]
      rfl
    | ok q =>
      have he : load_notebook_names st r =
          buildMaps (survivors (q.getD []))
            (firstOccur ((survivors (q.getD [])).map (fun n => n.attributes.uuid)))
            ⟨[], []⟩ := by
        unfold load_notebook_names
        rw [hq]
      rw [he]
      exact buildMaps_sameKeys _ _ _ rfl
  · intro id hdel
    by_cases hex : notebook_exists st id = true
    · have hpair : hasKey st.mapping id = true ∧ hasKey st.shock_map id = true := by
        simpa [notebook_exists, Bool.and_eq_true] using hex
      have hm := hpair.1
      have hs := hpair.2
      have he : delete_notebook st id =
          (⟨pyDelete st.mapping id, pyDelete st.shock_map id⟩, .ok ()) := by
        unfold delete_notebook delete_notebook_id
        rw [hex]
        simp [hm, hs]
      rw [he]
      unfold sameKeys at h ⊢
      rw [keys_pyDelete, keys_pyDelete, h]
    · exfalso
      have he : (delete_notebook st id).2 =
          .error (.httpError 404 "Notebook does not exist") := by
        unfold delete_notebook
        rw [if_pos hex]
      rw [he] at hdel
      exact absurd hdel (by simp)
  · intro nb oid freshId now user encodeOk post id hwr
    cases hname : nb.metadata.name with
    | none =>
      exfalso
      unfold write_notebook_object at hwr
      rw [hname] at hwr
      exact absurd hwr (by simp)
    | some nm =>
      rw [write_eq st nb oid freshId now user encodeOk post nm hname] at hwr ⊢
      by_cases hk : hasKey (wSt1 st oid freshId nm).mapping (wNid oid freshId) = true
      · rw [if_neg (by simp [hk])] at hwr ⊢
        by_cases hen : encodeOk = true
        · rw [if_neg (by simp [hen])] at hwr ⊢
          cases hp : postShock post with
          | error e =>
            rw [hp] at hwr
            exact absurd hwr (by simp)
          | ok node =>
            show sameKeys
              (⟨pySet (wSt1 st oid freshId nm).mapping (wNid oid freshId) nm,
                pySet (wSt1 st oid freshId nm).shock_map (wNid oid freshId) node⟩ :
                NBState)
            unfold sameKeys
            cases oid with
            | some i =>
              simp only [wSt1, wNid] at hk ⊢
              have him : i ∈ keys st.mapping := (hasKey_iff _ _).mp hk
              have his : i ∈ keys st.shock_map := h ▸ him
              rw [keys_pySet st.mapping i nm, if_pos him,
                keys_pySet st.shock_map i node, if_pos his, h]
            | none =>
              simp only [wSt1, wNid] at hk ⊢
              have hfm : freshId ∈ keys (pySet st.mapping freshId nm) :=
                (hasKey_iff _ _).mp (hasKey_pySet_self _ _ _)
              rw [keys_pySet (pySet st.mapping freshId nm) freshId nm, if_pos hfm,
                keys_pySet st.mapping freshId nm,
                keys_pySet st.shock_map freshId node, ← h]
        · rw [if_pos (by simpa using hen)] at hwr
          exact absurd hwr (by simp)
      · rw [if_pos (by simpa using hk)] at hwr
        exact absurd hwr (by simp)
  · intro id
    unfold notebook_exists
    rw [Bool.and_eq_true, hasKey_iff, hasKey_iff]

/-- Witness for C9: the exists-iff conjunct at a one-entry index whose
dicts share the key `u1`. -/
theorem C9_maps_share_keys_witness :
    notebook_exists ⟨[("u1", "alpha")], [("u1", nA)]⟩ "u1" = true ↔
      ("u1" ∈ keys [("u1", "alpha")] ∧ "u1" ∈ keys [("u1", nA)]) :=
  (C9_maps_share_keys ⟨[("u1", "alpha")], [("u1", nA)]⟩ rfl).2.2.2 "u1"

/-- C10: a write to an id absent from the mapping stamps the caller's
notebook metadata in place (lines 118-121) before the existence check of
line 124 rejects it, so the call fails with the 404 error while the
notebook object already carries the stamped `created`, `user`, `type` and
`uuid` — the input is not left unchanged on this error path. -/
theorem C10_stamp_before_existence_check (st : NBState) (nb : NB)
    (id nm freshId now user : String) (encodeOk : Bool) (post : PostResponse)
    (hname : nb.metadata.name = some nm)
    (habs : hasKey st.mapping id = false) :
    (write_notebook_object st nb (some id) freshId now user encodeOk post).result =
      .error (.httpError 404 "Notebook does not exist") ∧
    (write_notebook_object st nb (some id) freshId now user encodeOk post).nb =
      ⟨⟨some nm, some now, some (if user = "" then "public" else user),
        some "ipynb", some id⟩, nb.cells⟩ := by
  rw [write_eq st nb (some id) freshId now user encodeOk post nm hname]
  unfold wSt1 wNid wNb1
  rw [if_pos (by simp [habs])]
  exact ⟨rfl, by rw [hname]⟩

/-- Witness for C10: writing to the unmapped id `u7` fails with 404 while
the notebook comes back stamped. -/
theorem C10_stamp_before_existence_check_witness :
    (write_notebook_object ⟨[("u1", "alpha")], [("u1", nA)]⟩ nbW (some "u7") "u9"
        "2012-07-01T00:00:00" "" true (postOk nB)).result =
      .error (.httpError 404 "Notebook does not exist") ∧
    (write_notebook_object ⟨[("u1", "alpha")], [("u1", nA)]⟩ nbW (some "u7") "u9"
        "2012-07-01T00:00:00" "" true (postOk nB)).nb =
      ⟨⟨some "mynb", some "2012-07-01T00:00:00",
        some (if ("" : String) = "" then "public" else ""),
        some "ipynb", some "u7"⟩, "cells"⟩ :=
  C10_stamp_before_existence_check ⟨[("u1", "alpha")], [("u1", nA)]⟩ nbW "u7" "mynb"
    "u9" "2012-07-01T00:00:00" "" true (postOk nB) (by decide) (by decide)

end Shock
